import Mathlib

/-!
Verification development for the video_edit repository.

The repository is a Python video-processing service: an HTTP layer accepts a
processing request, a Redis hash per job tracks its lifecycle, a Celery task
drives a multi-stage ffmpeg pipeline (download, concatenate, overlay, encode)
and writes progress into the job record after every stage.

This file gives a shallow embedding of the parts of the code that the claims
are about, translated from the source files:
  storage_py.py          (job store over Redis hashes)
  celery_tasks_py.py     (the worker task, its retry policy, status updates)
  video_processor_py.py  (the pipeline and the encoding preset table)
  api_routes_py.py       (submission, status and result routes)
  api_download_route.py  (asset retrieval with filename sanitisation)

Modelling conventions:
  - A Redis hash is a field map, embedded as an association list in which an
    earlier entry shadows a later one; a field update prepends its bindings,
    which gives exactly the hset merge semantics of the source.
  - Timestamps are an abstract clock value (a natural number); the isoformat
    string written by the code is modelled by the numeric clock value.
  - Floats only occur as the progress checkpoints 0.0, 0.1, ..., 1.0 written
    by the code; they are embedded as the exact rationals with the same
    ordering, and the str/float round trip through Redis is the identity.
  - Filesystem paths are component lists; os.path.join with a slash-free name
    appends one component. Calls to external processes (httpx download,
    ffmpeg) are oracles recorded in a PipelineEnv value.
-/

namespace VideoEdit

/-- Value stored in one field of a Redis job hash. The code stores strings and
numbers (progress is stringified on write and parsed back on read; that round
trip is modelled as the identity). -/
inductive Value where
  | str (s : String)
  | num (q : Rat)
deriving DecidableEq

/-- A job record: the field map of the Redis hash job:{id}. An earlier entry
shadows a later one, so prepending a binding overwrites a field. -/
abbrev Record := List (String × Value)

/-- First-match field lookup in a record. -/
def lookupField : Record → String → Option Value
  | [], _ => none
  | (k', v) :: r, k => if k' = k then some v else lookupField r k

/-- Merge an update map into a record, later update entries winning, fields
not mentioned by the update kept: the semantics of redis hset with a mapping
(storage_py.py update_job_status / store_job_info). Implemented by prepending
the update bindings in order, so the last prepended binding is found first. -/
def mergeFields (r : Record) (u : Record) : Record :=
  u.foldl (fun acc kv => kv :: acc) r

/-- Strict choice on optional field values: the first value when present,
otherwise the second. -/
def orElseV : Option Value → Option Value → Option Value
  | some v, _ => some v
  | none, b => b

@[simp] theorem orElseV_some (v : Value) (b : Option Value) :
    orElseV (some v) b = some v := rfl

@[simp] theorem orElseV_none (b : Option Value) : orElseV none b = b := rfl

@[simp] theorem orElseV_none_right (a : Option Value) : orElseV a none = a := by
  cases a <;> rfl

theorem orElseV_assoc (a b c : Option Value) :
    orElseV (orElseV a b) c = orElseV a (orElseV b c) := by
  cases a <;> rfl

/-- The last binding a list of update maps gives to a field, if any: the value
the field holds after all the updates are merged in order. -/
def lastBindingIn : List Record → String → Option Value
  | [], _ => none
  | u :: rest, k => orElseV (lastBindingIn rest k) (lookupField u.reverse k)

theorem lookupField_append (r₁ r₂ : Record) (k : String) :
    lookupField (r₁ ++ r₂) k = orElseV (lookupField r₁ k) (lookupField r₂ k) := by
  induction r₁ with
  | nil => rfl
  | cons kv r₁ ih =>
    by_cases h : kv.1 = k <;> simp [lookupField, h, ih]

theorem lookupField_mergeFields (r u : Record) (k : String) :
    lookupField (mergeFields r u) k
      = orElseV (lookupField u.reverse k) (lookupField r k) := by
  induction u generalizing r with
  | nil => rfl
  | cons kv u ih =>
    show lookupField (mergeFields (kv :: r) u) k = _
    rw [ih (kv :: r)]
    simp only [List.reverse_cons, lookupField_append, orElseV_assoc]
    by_cases h : kv.1 = k <;>
      simp [lookupField, h]

theorem lookupField_foldl_mergeFields (us : List Record) (r : Record) (k : String) :
    lookupField (us.foldl mergeFields r) k
      = orElseV (lastBindingIn us k) (lookupField r k) := by
  induction us generalizing r with
  | nil => rfl
  | cons u us ih =>
    show lookupField (us.foldl mergeFields (mergeFields r u)) k = _
    rw [ih (mergeFields r u), lookupField_mergeFields]
    simp only [lastBindingIn, orElseV_assoc]

theorem lastBindingIn_append (l₁ l₂ : List Record) (k : String) :
    lastBindingIn (l₁ ++ l₂) k
      = orElseV (lastBindingIn l₂ k) (lastBindingIn l₁ k) := by
  induction l₁ with
  | nil => simp [lastBindingIn]
  | cons u l₁ ih =>
    simp only [List.cons_append, lastBindingIn, List.append_eq, ih, orElseV_assoc]

/-! ## The encoding preset table (video_processor_py.py, encode_video) -/

/-- The fixed preset table of encode_video: each preset binds an exact ffmpeg
parameter list (video_processor_py.py lines 198-203). -/
def presetsTable : List (String × List String) :=
  [("standard", ["-c:v", "libx264", "-preset", "medium", "-crf", "23",
                 "-c:a", "aac", "-b:a", "128k"]),
   ("high", ["-c:v", "libx264", "-preset", "slow", "-crf", "18",
             "-c:a", "aac", "-b:a", "256k"]),
   ("mobile", ["-c:v", "libx264", "-preset", "fast", "-crf", "28",
               "-s", "1280x720", "-c:a", "aac", "-b:a", "96k"]),
   ("web", ["-c:v", "libx264", "-preset", "medium", "-crf", "25",
            "-s", "1920x1080", "-c:a", "aac", "-b:a", "128k"])]

/-- encoding_params = presets.get(preset, presets["standard"]): the parameter
list chosen for a preset name, falling back to standard for any other name. -/
def encodingParams (preset : String) : List String :=
  match (presetsTable.lookup preset) with
  | some ps => ps
  | none => ["-c:v", "libx264", "-preset", "medium", "-crf", "23",
             "-c:a", "aac", "-b:a", "128k"]

/-- The command encode_video runs:
cmd = ["ffmpeg", "-y", "-i", input_path] + encoding_params + [output_path]. -/
def encodeCmd (inputPath outputPath preset : String) : List String :=
  ["ffmpeg", "-y", "-i", inputPath] ++ encodingParams preset ++ [outputPath]

theorem encodingParams_lookup_nonmem (preset : String)
    (h : preset ∉ ["standard", "high", "mobile", "web"]) :
    presetsTable.lookup preset = none := by
  simp only [List.mem_cons, not_or, List.not_mem_nil] at h
  obtain ⟨h1, h2, h3, h4, -⟩ := h
  have e1 : (preset == "standard") = false := beq_eq_false_iff_ne.mpr h1
  have e2 : (preset == "high") = false := beq_eq_false_iff_ne.mpr h2
  have e3 : (preset == "mobile") = false := beq_eq_false_iff_ne.mpr h3
  have e4 : (preset == "web") = false := beq_eq_false_iff_ne.mpr h4
  simp [presetsTable, List.lookup, e1, e2, e3, e4]

/-- Claim C10: for each of the four preset names standard, high, mobile and
web, the final encode invokes the encoder with exactly that fixed parameter
list; any other preset string silently falls back to the standard parameters
instead of failing. -/
theorem C10_presets : ∀ inputPath outputPath : String,
    (encodeCmd inputPath outputPath "standard"
      = ["ffmpeg", "-y", "-i", inputPath] ++
        ["-c:v", "libx264", "-preset", "medium", "-crf", "23",
         "-c:a", "aac", "-b:a", "128k"] ++ [outputPath]) ∧
    (encodeCmd inputPath outputPath "high"
      = ["ffmpeg", "-y", "-i", inputPath] ++
        ["-c:v", "libx264", "-preset", "slow", "-crf", "18",
         "-c:a", "aac", "-b:a", "256k"] ++ [outputPath]) ∧
    (encodeCmd inputPath outputPath "mobile"
      = ["ffmpeg", "-y", "-i", inputPath] ++
        ["-c:v", "libx264", "-preset", "fast", "-crf", "28",
         "-s", "1280x720", "-c:a", "aac", "-b:a", "96k"] ++ [outputPath]) ∧
    (encodeCmd inputPath outputPath "web"
      = ["ffmpeg", "-y", "-i", inputPath] ++
        ["-c:v", "libx264", "-preset", "medium", "-crf", "25",
         "-s", "1920x1080", "-c:a", "aac", "-b:a", "128k"] ++ [outputPath]) ∧
    ∀ preset : String, preset ∉ ["standard", "high", "mobile", "web"] →
      encodeCmd inputPath outputPath preset = encodeCmd inputPath outputPath "standard" := by
  intro inputPath outputPath
  refine ⟨rfl, rfl, rfl, rfl, ?_⟩
  intro preset h
  have hp : encodingParams preset = encodingParams "standard" := by
    unfold encodingParams
    rw [encodingParams_lookup_nonmem preset h]
    rfl
  simp only [encodeCmd, hp]

/-- Witness for C10 at a concrete unknown preset name. -/
theorem C10_witness :
    "ultra" ∉ ["standard", "high", "mobile", "web"] ∧
    encodeCmd "in.mp4" "out.mp4" "ultra" = encodeCmd "in.mp4" "out.mp4" "standard" := by
  refine ⟨by decide, ?_⟩
  exact (C10_presets "in.mp4" "out.mp4").2.2.2.2 "ultra" (by decide)

/-! ## The job store (storage_py.py)

One Redis hash per job id, with an optional expiry instant on the key.
The store is an association list from job id to stored job; as for records,
an earlier entry shadows a later one, and writing a job prepends it. -/

/-- A stored job: the field hash and the expiry instant of the Redis key
(none when the key carries no TTL). -/
structure StoredJob where
  fields : Record
  expiry : Option Nat
deriving DecidableEq

/-- The Redis job database: association list from job id to stored job,
earlier entries shadowing later ones. -/
abbrev Store := List (String × StoredJob)

/-- First-match job lookup by id. -/
def findJob : Store → String → Option StoredJob
  | [], _ => none
  | (i, j) :: rest, id => if i = id then some j else findJob rest id

/-- Write a job under an id (prepend; the new entry shadows any old one). -/
def setJob (store : Store) (id : String) (j : StoredJob) : Store :=
  (id, j) :: store

@[simp] theorem findJob_setJob (store : Store) (id : String) (j : StoredJob) :
    findJob (setJob store id j) id = some j := by
  simp [findJob, setJob]

/-- settings.job_expiry_hours (app_config_py.py). -/
def jobExpiryHours : Nat := 24

/-- settings.max_concurrent_jobs (app_config_py.py). -/
def maxConcurrentJobs : Nat := 3

/-- store_job_info (storage_py.py lines 45-54): sets created_at on the data,
merges it into the hash with hset, and puts a TTL of job_expiry_hours * 3600
seconds on the key. Always reports success (the exception branch is the
environment failing, not a decision of the code). -/
def storeJobInfo (store : Store) (now : Nat) (id : String) (data : Record) :
    Bool × Store :=
  let fields0 := match findJob store id with
    | some j => j.fields
    | none => []
  let newFields := mergeFields fields0 (data ++ [("created_at", Value.num now)])
  (true, setJob store id { fields := newFields, expiry := some (now + jobExpiryHours * 3600) })

/-- update_job_status (storage_py.py lines 75-87): stamps updated_at into the
update map (overwriting any updated_at the caller passed, as the dict assign
does), then merges the map into the hash with hset and returns True. There is
no existence check: on an unknown id, hset creates the hash (without a TTL)
and the function still returns True. The progress str/float round trip is the
identity in this model. -/
def updateJobStatus (store : Store) (now : Nat) (id : String) (updates : Record) :
    Bool × Store :=
  let updates' := updates ++ [("updated_at", Value.num now)]
  match findJob store id with
  | some j =>
      (true, setJob store id { fields := mergeFields j.fields updates', expiry := j.expiry })
  | none =>
      (true, setJob store id { fields := mergeFields [] updates', expiry := none })

/-- get_job_status (storage_py.py lines 56-73): hgetall on the job hash; a
missing or expired key reads as an empty hash, reported as None. Redis drops
the key once the expiry instant is reached. -/
def getJobStatusStore (store : Store) (now : Nat) (id : String) : Option Record :=
  match findJob store id with
  | none => none
  | some j =>
      match j.expiry with
      | some e => if e ≤ now then none else some j.fields
      | none => some j.fields

/-- get_download_url (storage_py.py lines 89-100) in the default local
storage configuration: the relative download route for the basename of the
output file. The path is a component list, so the basename is its last
component. -/
def getDownloadUrl (path : List String) : String :=
  "/api/v1/download/" ++ path.getLastD ""

/-- cleanup_expired_jobs (celery_tasks_py.py lines 141-153): the body only
logs and returns a fixed status/message pair; it touches no job record and
computes no count. -/
def cleanupExpiredJobs (store : Store) : Store × (String × String) :=
  (store, ("success", "Cleanup completed"))

/-! ## Status and result routes (api_routes_py.py) -/

/-- GET /status/{job_id} (api_routes_py.py lines 104-120): 404 when the store
has no live record, otherwise the record. -/
def getStatusRoute (store : Store) (now : Nat) (id : String) :
    Except (Nat × String) Record :=
  match getJobStatusStore store now id with
  | none => Except.error (404, "Job not found")
  | some r => Except.ok r

/-- GET /result/{job_id} (api_routes_py.py lines 122-149): 404 on unknown id;
400 naming the current status when the job is not completed; otherwise the
job id with the stored result_url and completed_at fields. A record without a
status field would raise a KeyError, caught by the catch-all as a 500. -/
def getJobResultRoute (store : Store) (now : Nat) (id : String) :
    Except (Nat × String) (String × Option Value × Option Value) :=
  match getJobStatusStore store now id with
  | none => Except.error (404, "Job not found")
  | some r =>
      match lookupField r "status" with
      | some (Value.str s) =>
          if s = "completed" then
            Except.ok (id, lookupField r "result_url", lookupField r "completed_at")
          else
            Except.error (400, "Job is not completed. Current status: " ++ s)
      | _ => Except.error (500, "'status'")

/-! ## Claim C4: update merge semantics -/

/-- Claim C4 counterexample. The claim says that for an unknown job id the
update operation returns NotFound. In the code update_job_status performs no
existence check: on an empty store it reports success (True) and hset brings
the record into existence. -/
theorem C4_counterexample :
    (updateJobStatus [] 5 "missing-job" [("status", Value.str "processing")]).1 = true ∧
    findJob (updateJobStatus [] 5 "missing-job" [("status", Value.str "processing")]).2
        "missing-job"
      = some { fields := [("updated_at", Value.num 5), ("status", Value.str "processing")],
               expiry := none } := by
  constructor
  · rfl
  · rfl

/-- Claim C4, amended: for an existing job id the update merges the supplied
fields into the stored record without losing any field not being updated and
refreshes the updated_at timestamp; but for an unknown job id it does not
return NotFound: it reports success and creates a fresh record holding only
the supplied fields plus updated_at, with no TTL. -/
theorem C4_amended : ∀ (store : Store) (now : Nat) (id : String) (u : Record),
    (updateJobStatus store now id u).1 = true ∧
    (∀ j : StoredJob, findJob store id = some j →
        findJob (updateJobStatus store now id u).2 id
          = some { fields := mergeFields j.fields (u ++ [("updated_at", Value.num now)]),
                   expiry := j.expiry } ∧
        (∀ k, k ≠ "updated_at" → lookupField u.reverse k = none →
            lookupField (mergeFields j.fields (u ++ [("updated_at", Value.num now)])) k
              = lookupField j.fields k) ∧
        (∀ k v, k ≠ "updated_at" → lookupField u.reverse k = some v →
            lookupField (mergeFields j.fields (u ++ [("updated_at", Value.num now)])) k
              = some v) ∧
        lookupField (mergeFields j.fields (u ++ [("updated_at", Value.num now)])) "updated_at"
          = some (Value.num now)) ∧
    (findJob store id = none →
        findJob (updateJobStatus store now id u).2 id
          = some { fields := mergeFields [] (u ++ [("updated_at", Value.num now)]),
                   expiry := none }) := by
  intro store now id u
  refine ⟨?_, ?_, ?_⟩
  · unfold updateJobStatus
    cases findJob store id <;> rfl
  · intro j hj
    refine ⟨?_, ?_, ?_, ?_⟩
    · unfold updateJobStatus
      rw [hj]
      simp
    · intro k hk hnone
      rw [lookupField_mergeFields]
      simp [lookupField_append, lookupField, hnone, Ne.symm hk]
    · intro k v hk hsome
      rw [lookupField_mergeFields]
      simp [lookupField_append, lookupField, hsome, Ne.symm hk]
    · rw [lookupField_mergeFields]
      simp [lookupField_append, lookupField]
  · intro hnone
    unfold updateJobStatus
    rw [hnone]
    simp

/-- Witness for C4 at a concrete store holding one job. -/
theorem C4_witness :
    (updateJobStatus
        [("j4", { fields := [("status", Value.str "pending"), ("customer_name", Value.str "Acme")],
                  expiry := some 100 })]
        7 "j4" [("status", Value.str "processing")]).1 = true ∧
    lookupField
        (mergeFields [("status", Value.str "pending"), ("customer_name", Value.str "Acme")]
          ([("status", Value.str "processing")] ++ [("updated_at", Value.num 7)]))
        "customer_name"
      = lookupField [("status", Value.str "pending"), ("customer_name", Value.str "Acme")]
          "customer_name" ∧
    lookupField
        (mergeFields [("status", Value.str "pending"), ("customer_name", Value.str "Acme")]
          ([("status", Value.str "processing")] ++ [("updated_at", Value.num 7)]))
        "updated_at"
      = some (Value.num 7) := by
  have h := C4_amended
      [("j4", { fields := [("status", Value.str "pending"), ("customer_name", Value.str "Acme")],
                expiry := some 100 })]
      7 "j4" [("status", Value.str "processing")]
  refine ⟨h.1, ?_, ?_⟩
  · exact (h.2.1 { fields := [("status", Value.str "pending"),
                              ("customer_name", Value.str "Acme")],
                   expiry := some 100 } (by decide)).2.1 "customer_name" (by decide) (by decide)
  · exact (h.2.1 { fields := [("status", Value.str "pending"),
                              ("customer_name", Value.str "Acme")],
                   expiry := some 100 } (by decide)).2.2.2

/-! ## Claim C9: the expiry sweep -/

/-- A concrete store for the C9 counterexample: one job whose expiry deadline
(instant 10) has already passed at the observation instant 20. -/
def c9store : Store :=
  [("j9", { fields := [("status", Value.str "completed")], expiry := some 10 })]

/-- Claim C9 counterexample. The claim says the expiry sweep removes all
records whose expiry deadline has passed and returns the count removed. The
sweep task body is a stub: on a store holding a record expired since instant
10, observed at instant 20, it leaves the store unchanged (the record is
still present) and returns a fixed status/message pair carrying no count. -/
theorem C9_counterexample :
    cleanupExpiredJobs c9store = (c9store, ("success", "Cleanup completed")) ∧
    findJob (cleanupExpiredJobs c9store).1 "j9"
      = some { fields := [("status", Value.str "completed")], expiry := some 10 } ∧
    10 ≤ 20 := by
  exact ⟨rfl, rfl, by decide⟩

/-- Claim C9, amended: the sweep task is a stub that removes nothing and
returns a fixed success message with no count; removal after the TTL is
instead performed by the per-key expiry that store_job_info sets at creation,
so once a job TTL (job_expiry_hours) has elapsed a status query for the job
id returns NotFound. -/
theorem C9_amended :
    (∀ store : Store, cleanupExpiredJobs store = (store, ("success", "Cleanup completed"))) ∧
    (∀ (store : Store) (now : Nat) (id : String) (data : Record) (t : Nat),
        now + jobExpiryHours * 3600 ≤ t →
        getStatusRoute (storeJobInfo store now id data).2 t id
          = Except.error (404, "Job not found")) := by
  refine ⟨fun store => rfl, ?_⟩
  intro store now id data t ht
  unfold getStatusRoute getJobStatusStore storeJobInfo
  simp [ht]

/-- Witness for C9 at a concrete store, creation instant and query instant. -/
theorem C9_witness :
    0 + jobExpiryHours * 3600 ≤ 86400 ∧
    getStatusRoute (storeJobInfo [] 0 "j9w" [("status", Value.str "pending")]).2 86400 "j9w"
      = Except.error (404, "Job not found") := by
  refine ⟨by decide, ?_⟩
  exact C9_amended.2 [] 0 "j9w" [("status", Value.str "pending")] 86400 (by decide)

/-! ## Claim C5: the result query -/

/-- Claim C5: for a job whose status is not completed the result query fails
with a 400 state-conflict error whose message names the current status; for a
completed job it returns the stored result reference (and completed_at); for
an unknown or expired job id it returns 404 NotFound. -/
theorem C5_result_query : ∀ (store : Store) (now : Nat) (id : String),
    (getJobStatusStore store now id = none →
        getJobResultRoute store now id = Except.error (404, "Job not found")) ∧
    (∀ (r : Record) (s : String), getJobStatusStore store now id = some r →
        lookupField r "status" = some (Value.str s) → s ≠ "completed" →
        getJobResultRoute store now id
          = Except.error (400, "Job is not completed. Current status: " ++ s)) ∧
    (∀ r : Record, getJobStatusStore store now id = some r →
        lookupField r "status" = some (Value.str "completed") →
        getJobResultRoute store now id
          = Except.ok (id, lookupField r "result_url", lookupField r "completed_at")) := by
  intro store now id
  refine ⟨?_, ?_, ?_⟩
  · intro h
    unfold getJobResultRoute
    rw [h]
  · intro r s hr hs hne
    simp only [getJobResultRoute, hr, hs]
    simp [hne]
  · intro r hr hs
    simp only [getJobResultRoute, hr, hs]
    simp

/-- A concrete store for the C5 witness: a pending job and a completed job. -/
def c5store : Store :=
  [("jp", { fields := [("status", Value.str "pending")], expiry := some 100 }),
   ("jc", { fields := [("status", Value.str "completed"),
                       ("result_url", Value.str "/api/v1/download/jc_final.mp4"),
                       ("completed_at", Value.num 9)],
            expiry := some 100 })]

/-- Witness for C5: the pending job yields the 400 error naming "pending",
the completed job yields the stored result reference, and an unknown id
yields 404. -/
theorem C5_witness :
    getJobResultRoute c5store 0 "jp"
      = Except.error (400, "Job is not completed. Current status: " ++ "pending") ∧
    getJobResultRoute c5store 0 "jc"
      = Except.ok ("jc", some (Value.str "/api/v1/download/jc_final.mp4"), some (Value.num 9)) ∧
    getJobResultRoute c5store 0 "nope" = Except.error (404, "Job not found") := by
  refine ⟨?_, ?_, ?_⟩
  · exact (C5_result_query c5store 0 "jp").2.1 [("status", Value.str "pending")] "pending"
      (by decide) (by decide) (by decide)
  · have h := (C5_result_query c5store 0 "jc").2.2
      [("status", Value.str "completed"),
       ("result_url", Value.str "/api/v1/download/jc_final.mp4"),
       ("completed_at", Value.num 9)]
      (by decide) (by decide)
    rw [h]
    rfl
  · exact (C5_result_query c5store 0 "nope").1 (by decide)

/-! ## Asset retrieval (api_download_route.py)

Filesystem paths are component lists; settings.assets_path = "/app/assets"
is the component list ["app", "assets"], and os.path.join with a slash-free
name appends one component. os.path.basename is the part of the string after
the last slash, computed here over the character list. -/

/-- settings.assets_path as a component list. -/
def assetsDir : List String := ["app", "assets"]

/-- settings.temp_storage_path as a component list. -/
def tempDir : List String := ["app", "temp"]

/-- settings.local_storage_path as a component list. -/
def outputDir : List String := ["app", "outputs"]

/-- os.path.join of a directory and a slash-free name: one more component. -/
def pathJoin (dir : List String) (name : String) : List String :=
  dir ++ [name]

/-- The characters of a string after its last slash. -/
def lastComponentChars (cs : List Char) : List Char :=
  cs.foldl (fun acc c => if c = '/' then [] else acc ++ [c]) []

/-- os.path.basename: everything after the last slash (the whole string when
it has no slash; empty when the string ends in a slash). -/
def basename (s : String) : String :=
  String.mk (lastComponentChars s.data)

/-- POSIX resolution of a component path: empty components and "." collapse,
".." removes the preceding component. -/
def resolveComponents (cs : List String) : List String :=
  cs.foldl
    (fun acc c =>
      if c = "" ∨ c = "." then acc
      else if c = ".." then acc.dropLast
      else acc ++ [c])
    []

/-- The asset categories accepted by the download route. -/
def validAssetTypes : List String := ["intros", "outros", "logos"]

/-- The category directory served for an asset type
(settings.get_intro_path and friends, app_config_py.py). -/
def assetDirFor (assetType : String) : List String :=
  if assetType = "intros" then pathJoin assetsDir "intros"
  else if assetType = "outros" then pathJoin assetsDir "outros"
  else pathJoin assetsDir "logos"

/-- GET /asset/{asset_type}/{filename} (api_download_route.py lines 100-124):
reject any category other than intros/outros/logos with a 400; reduce the
filename to its basename; join it onto the category directory; 404 when the
file does not exist, otherwise serve that path. -/
def downloadAsset (fsExists : List String → Bool) (assetType filename : String) :
    Except (Nat × String) (List String) :=
  if (assetType = "intros" ∨ assetType = "outros" ∨ assetType = "logos")
      = False then Except.error (400, "Invalid asset type")
  else
    let safeFilename := basename filename
    let filePath := pathJoin (assetDirFor assetType) safeFilename
    if fsExists filePath then Except.ok filePath
    else Except.error (404, "Asset not found")

/-- Claim C8 counterexample. The claim says that after basename reduction no
path outside the fixed category directory can ever be addressed. The name
".." contains no slash, so basename leaves it unchanged, and the route then
addresses assets/intros/.. : that path resolves to the assets directory,
which is outside the intros category directory (its resolution is not an
extension of the category directory resolution). -/
theorem C8_counterexample :
    downloadAsset (fun _ => true) "intros" ".."
      = Except.ok ["app", "assets", "intros", ".."] ∧
    resolveComponents ["app", "assets", "intros", ".."] = ["app", "assets"] ∧
    (resolveComponents (assetDirFor "intros")).isPrefixOf
        (resolveComponents ["app", "assets", "intros", ".."]) = false := by
  refine ⟨?_, by decide, by decide⟩
  rfl

/-- Claim C8, amended: any category name other than intros, outros and logos
is rejected with a 400 client error; for the three valid categories the
supplied filename is reduced to its base name, so the served path is always
the category directory extended by exactly one slash-free component. Hence
for every filename whose base name is not one of "", "." and ".." the
resolved path stays inside the category directory; the residual names ""
and "." address the category directory itself and ".." addresses its parent
directory, never a file chosen by the requester outside the category. -/
theorem C8_amended :
    (∀ (fsExists : List String → Bool) (assetType filename : String),
        assetType ∉ validAssetTypes →
        downloadAsset fsExists assetType filename
          = Except.error (400, "Invalid asset type")) ∧
    (∀ (fsExists : List String → Bool) (assetType filename : String) (p : List String),
        downloadAsset fsExists assetType filename = Except.ok p →
        p = pathJoin (assetDirFor assetType) (basename filename)) ∧
    (∀ assetType filename : String, assetType ∈ validAssetTypes →
        basename filename ∉ ["", ".", ".."] →
        resolveComponents (pathJoin (assetDirFor assetType) (basename filename))
          = resolveComponents (assetDirFor assetType) ++ [basename filename] ∧
        (resolveComponents (assetDirFor assetType)).isPrefixOf
            (resolveComponents (pathJoin (assetDirFor assetType) (basename filename)))
          = true) := by
  refine ⟨?_, ?_, ?_⟩
  · intro fsExists assetType filename h
    simp only [validAssetTypes, List.mem_cons, not_or, List.not_mem_nil] at h
    obtain ⟨h1, h2, h3, -⟩ := h
    simp [downloadAsset, h1, h2, h3]
  · intro fsExists assetType filename p h
    unfold downloadAsset at h
    split at h
    · exact absurd h (by simp)
    · simp only [] at h
      split at h
      · simpa using h.symm
      · exact absurd h (by simp)
  · intro assetType filename hmem hbase
    simp only [List.mem_cons, not_or, List.not_mem_nil] at hbase
    obtain ⟨hb1, hb2, hb3, -⟩ := hbase
    have hres : resolveComponents (pathJoin (assetDirFor assetType) (basename filename))
        = resolveComponents (assetDirFor assetType) ++ [basename filename] := by
      fin_cases hmem <;>
        simp [pathJoin, assetDirFor, assetsDir, resolveComponents, hb1, hb2, hb3]
    refine ⟨hres, ?_⟩
    rw [hres]
    exact List.isPrefixOf_iff_prefix.mpr (List.prefix_append _ _)

/-- Witness for C8: an invalid category is rejected, and a normal filename
with a traversal prefix is reduced to a basename that stays inside the
category directory. -/
theorem C8_witness :
    downloadAsset (fun _ => true) "banners" "logo.png"
      = Except.error (400, "Invalid asset type") ∧
    resolveComponents (pathJoin (assetDirFor "logos") (basename "../../logo.png"))
      = resolveComponents (assetDirFor "logos") ++ [basename "../../logo.png"] := by
  constructor
  · exact C8_amended.1 (fun _ => true) "banners" "logo.png" (by decide)
  · exact (C8_amended.2.2 "logos" "../../logo.png" (by decide) (by decide)).1

/-! ## Job submission (api_routes_py.py, process_video route) -/

/-- The overlay options of a request: the two keys the pipeline reads
(add_customer_text and watermark_path). -/
structure OverlaySettings where
  addCustomerText : Bool
  watermarkPath : Option String
deriving DecidableEq

/-- The submission parameters of a job (ProcessVideoRequest, plus the
defaults the route applies). -/
structure JobParams where
  videoUrl : String
  customerName : String
  introClip : Option String
  outroClip : Option String
  transitionStyle : String
  overlay : OverlaySettings
  encodingPreset : String
deriving DecidableEq

/-- Python str.strip over the character list: drop whitespace on both ends. -/
def pyStrip (s : String) : String :=
  String.mk (((s.data.dropWhile Char.isWhitespace).reverse.dropWhile Char.isWhitespace).reverse)

/-- The job_data dict the submission route stores (api_routes_py.py lines
64-76): scalar fields in dict order; the optional clips appear only when
supplied (the code passes None otherwise, and None never matches any field
read back by the claims); the overlay dict is a non-scalar the record model
does not read back. -/
def jobDataOf (jobId : String) (p : JobParams) : Record :=
  [("job_id", Value.str jobId),
   ("status", Value.str "pending"),
   ("progress", Value.num 0),
   ("message", Value.str "Job queued for processing"),
   ("video_url", Value.str p.videoUrl),
   ("customer_name", Value.str p.customerName)]
  ++ (match p.introClip with
      | some c => [("intro_clip", Value.str c)]
      | none => [])
  ++ (match p.outroClip with
      | some c => [("outro_clip", Value.str c)]
      | none => [])
  ++ [("transition_style", Value.str p.transitionStyle),
      ("encoding_preset", Value.str p.encodingPreset)]

/-- str(HTTPException(400, detail)) as starlette renders it, the text the
catch-all handler re-raises inside a 500. -/
def strOfHttp400 (detail : String) : String :=
  "400: " ++ detail

/-- POST /process (api_routes_py.py lines 47-102). The handler raises a 400
HTTPException for a missing URL or an empty/whitespace customer name, but its
only except clause is a catch-all that re-raises every exception, the 400
included, as a 500 whose detail is str(e); there is no
except-HTTPException-reraise clause as in the sibling handlers. On a valid
request it stores the pending record and returns the job id. -/
def processVideoRoute (req : JobParams) (store : Store) (now : Nat) (jobId : String) :
    Except (Nat × String) (String × String × String) × Store :=
  if req.videoUrl = "" then
    (Except.error (500, strOfHttp400 "video_url is required"), store)
  else if req.customerName = "" ∨ pyStrip req.customerName = "" then
    (Except.error (500, strOfHttp400 "customer_name is required"), store)
  else
    let result := storeJobInfo store now jobId (jobDataOf jobId req)
    (Except.ok (jobId, "pending", "Video processing job started successfully"), result.2)

/-- A concrete request with a whitespace-only customer label. -/
def c6request : JobParams :=
  { videoUrl := "http://example.com/v.mp4"
    customerName := "   "
    introClip := none
    outroClip := none
    transitionStyle := "fade"
    overlay := { addCustomerText := false, watermarkPath := none }
    encodingPreset := "standard" }

/-- Claim C6, evaluated at the failing input. Submitting a whitespace-only
customer label is rejected before any record is written, so a status query
for the would-be id returns NotFound — that half of the claim holds. But the
response is not a client validation error: the 400 HTTPException raised by
the validation check is caught by the catch-all except clause of the handler
and re-raised as a 500 server error wrapping the validation message. -/
theorem C6_behavior :
    processVideoRoute c6request [] 0 "job-c6"
      = (Except.error (500, "400: customer_name is required"), []) ∧
    getStatusRoute [] 0 "job-c6" = Except.error (404, "Job not found") ∧
    ¬ (400 ≤ (500 : Nat) ∧ (500 : Nat) < 500) := by
  refine ⟨?_, rfl, by decide⟩
  rfl

/-! ## The pipeline engine (video_processor_py.py, process_video)

One attempt of the pipeline, parametrised by an oracle PipelineEnv recording
what the filesystem and the external invocations (httpx download, the three
ffmpeg calls) do during that attempt. The attempt returns the sequence of
progress-callback events it fires, in order, and its outcome: the final
output path, or the message of the exception it raises. -/

/-- The oracles of one pipeline attempt. concat success may depend on the
segment list handed to ffmpeg. -/
structure PipelineEnv where
  fsExists : List String → Bool
  downloadOk : Bool
  concatOk : List (List String) → Bool
  watermarkOk : Bool
  encodeOk : Bool

/-- Job-scoped temp file for the downloaded input. -/
def inputVideoPath (jobId : String) : List String :=
  pathJoin tempDir (jobId ++ "_input.mp4")

/-- Job-scoped temp file for the concatenation output. -/
def concatOutputPath (jobId : String) : List String :=
  pathJoin tempDir (jobId ++ "_concat.mp4")

/-- Job-scoped temp file for the watermark output. -/
def watermarkVideoPath (jobId : String) : List String :=
  pathJoin tempDir (jobId ++ "_watermark.mp4")

/-- The durable output keyed by job id. -/
def finalOutputPath (jobId : String) : List String :=
  pathJoin outputDir (jobId ++ "_final.mp4")

/-- os.path.join(assets_path, "intros", clip). -/
def introAssetPath (clip : String) : List String :=
  assetsDir ++ ["intros", clip]

/-- os.path.join(assets_path, "outros", clip). -/
def outroAssetPath (clip : String) : List String :=
  assetsDir ++ ["outros", clip]

/-- os.path.join(assets_path, "logos", name). -/
def logoAssetPath (name : String) : List String :=
  assetsDir ++ ["logos", name]

/-- Segment assembly (video_processor_py.py lines 248-266): the intro asset
when named and present on disk, then the downloaded main video, then the
outro asset when named and present on disk. -/
def buildSegments (fsExists : List String → Bool) (introClip outroClip : Option String)
    (inputVideo : List String) : List (List String) :=
  (match introClip with
   | some c => if fsExists (introAssetPath c) then [introAssetPath c] else []
   | none => [])
  ++ [inputVideo]
  ++ (match outroClip with
      | some c => if fsExists (outroAssetPath c) then [outroAssetPath c] else []
      | none => [])

/-- The input the final encode reads (video_processor_py.py lines 279-302):
the watermark output when a watermark was requested, its logo asset exists
and the watermark call succeeded, otherwise the concatenation output. The
text-overlay branch never changes it (the code logs not-implemented). -/
def encodeInputPath (env : PipelineEnv) (jobId : String) (p : JobParams) : List String :=
  match p.overlay.watermarkPath with
  | none => concatOutputPath jobId
  | some w =>
      if env.fsExists (logoAssetPath w) && env.watermarkOk then watermarkVideoPath jobId
      else concatOutputPath jobId

/-- process_video (video_processor_py.py lines 220-329): fires the progress
events in order and either raises (the error message) at the failing stage or
returns the final output path. The 0.7 event fires when customer text is
requested (the overlay itself is a documented no-op); the 0.8 event fires
when a watermark is named, whether or not the logo exists. -/
def processVideoRun (env : PipelineEnv) (jobId : String) (p : JobParams) :
    List (Rat × String) × Except String (List String) :=
  let ev0 := [(mkRat 1 10, "Starting video processing...")]
  if env.downloadOk = false then (ev0, Except.error "Failed to download video")
  else
    let ev1 := ev0 ++ [(mkRat 3 10, "Video downloaded, processing...")]
    let segments := buildSegments env.fsExists p.introClip p.outroClip (inputVideoPath jobId)
    let ev2 := ev1 ++ [(mkRat 5 10, "Concatenating video segments...")]
    if env.concatOk segments = false then (ev2, Except.error "Failed to concatenate videos")
    else
      let ev3 :=
        if p.overlay.addCustomerText then
          ev2 ++ [(mkRat 7 10, "Adding customer text overlay...")]
        else ev2
      let ev4 :=
        match p.overlay.watermarkPath with
        | none => ev3
        | some _ => ev3 ++ [(mkRat 8 10, "Adding watermark...")]
      let ev5 := ev4 ++ [(mkRat 9 10, "Final encoding...")]
      if env.encodeOk = false then (ev5, Except.error "Failed to encode final video")
      else (ev5 ++ [((1 : Rat), "Video processing completed!")], Except.ok (finalOutputPath jobId))

/-! ## The worker task (celery_tasks_py.py, process_video_task)

run_processing updates the job record to processing/0.0 first, then relays
every pipeline progress event as a processing update, then writes the
completed update on success or the failed update on exception, re-raising
through self.retry. The Celery decorator gives max_retries=2 and the retry
call uses countdown=60, so one job sees at most three attempts. -/

/-- A progress-callback update: status processing, the progress value and the
stage message (celery_tasks_py.py lines 52-63). -/
def progressUpdate (q : Rat) (m : String) : Record :=
  [("status", Value.str "processing"), ("progress", Value.num q), ("message", Value.str m)]

/-- The completion update (celery_tasks_py.py lines 96-103). -/
def completedUpdate (url : String) (now : Nat) : Record :=
  [("status", Value.str "completed"), ("progress", Value.num 1),
   ("message", Value.str "Video processing completed successfully"),
   ("result_url", Value.str url), ("completed_at", Value.num now)]

/-- The failure update (celery_tasks_py.py lines 113-120). Note it sets no
result_url and clears no field: updates merge. -/
def failedUpdate (e : String) : Record :=
  [("status", Value.str "failed"), ("progress", Value.num 0),
   ("message", Value.str "Video processing failed"), ("error", Value.str e)]

/-- The updates one attempt writes before its terminal update: the initial
processing/0.0 update, then one processing update per pipeline event. -/
def preUpdates (env : PipelineEnv) (jobId : String) (p : JobParams) : List Record :=
  progressUpdate 0 "Starting video processing..." ::
    (processVideoRun env jobId p).1.map (fun pm => progressUpdate pm.1 pm.2)

/-- run_processing (celery_tasks_py.py lines 65-125): the full update list of
one attempt and whether it succeeded. -/
def runProcessing (env : PipelineEnv) (jobId : String) (p : JobParams) (now : Nat) :
    List Record × Bool :=
  match (processVideoRun env jobId p).2 with
  | Except.ok path =>
      (preUpdates env jobId p ++ [completedUpdate (getDownloadUrl path) now], true)
  | Except.error e =>
      (preUpdates env jobId p ++ [failedUpdate e], false)

/-- Whether one attempt succeeds. -/
def attemptOk (env : PipelineEnv) (jobId : String) (p : JobParams) : Bool :=
  match (processVideoRun env jobId p).2 with
  | Except.ok _ => true
  | Except.error _ => false

/-- max_retries=2 on the process_video_task decorator and on the retry call
(celery_tasks_py.py lines 40 and 125). -/
def maxRetries : Nat := 2

/-- countdown=60 on the retry call (celery_tasks_py.py line 125): the fixed
backoff delay in seconds between attempts. -/
def retryCountdown : Nat := 60

/-- The concatenated update sequence of a task execution: attempts run in
order, each consuming the next PipelineEnv oracle; a successful attempt ends
the task, a failed attempt re-raises through self.retry, which runs another
attempt while retry budget remains. -/
def taskUpdates : List PipelineEnv → String → JobParams → Nat → Nat → List Record
  | [], _, _, _, _ => []
  | env :: rest, jobId, p, now, budget =>
    if attemptOk env jobId p then (runProcessing env jobId p now).1
    else
      (runProcessing env jobId p now).1 ++
        (match budget with
         | 0 => []
         | Nat.succ b => taskUpdates rest jobId p now b)

/-- How many attempts a task execution makes. -/
def numAttempts : List PipelineEnv → String → JobParams → Nat → Nat
  | [], _, _, _ => 0
  | env :: rest, jobId, p, budget =>
    if attemptOk env jobId p then 1
    else 1 + (match budget with
              | 0 => 0
              | Nat.succ b => numAttempts rest jobId p b)

/-- The job record as created by the submission route and store_job_info:
job_data plus the created_at stamp (field-map equal to the stored hash). -/
def creationRecord (jobId : String) (p : JobParams) (now : Nat) : Record :=
  jobDataOf jobId p ++ [("created_at", Value.num now)]

/-- Every job record observable over the life of a task execution: the
creation record followed by the record after each worker update, updates
merging into the hash in order. -/
def jobTrace (envs : List PipelineEnv) (jobId : String) (p : JobParams) (now : Nat) :
    List Record :=
  List.scanl mergeFields (creationRecord jobId p now) (taskUpdates envs jobId p now maxRetries)

/-- The job record after the task execution has finished. -/
def finalRecord (envs : List PipelineEnv) (jobId : String) (p : JobParams) (now : Nat) :
    Record :=
  (taskUpdates envs jobId p now maxRetries).foldl mergeFields (creationRecord jobId p now)

/-- Whether the record status field holds the given string. -/
def statusIs (r : Record) (s : String) : Bool :=
  match lookupField r "status" with
  | some (Value.str s') => s' = s
  | _ => false

/-- Terminal states: completed or failed. -/
def isTerminal (r : Record) : Bool :=
  statusIs r "completed" || statusIs r "failed"

/-- Whether a field is present and non-empty. -/
def fieldNonempty (r : Record) (k : String) : Bool :=
  match lookupField r k with
  | some (Value.str s) => !(s == "")
  | some (Value.num _) => true
  | none => false

/-- The progress value of a record (0 when absent, as get_job_status
defaults a malformed progress to 0.0). -/
def progressValOf (r : Record) : Rat :=
  match lookupField r "progress" with
  | some (Value.num q) => q
  | _ => 0

/-- The progress values observed over status reads strictly before the first
terminal read. -/
def progressValues (envs : List PipelineEnv) (jobId : String) (p : JobParams) (now : Nat) :
    List Rat :=
  ((jobTrace envs jobId p now).takeWhile (fun r => !(isTerminal r))).map progressValOf

/-- An environment in which every oracle succeeds and every asset exists. -/
def envAllOk : PipelineEnv :=
  { fsExists := fun _ => true
    downloadOk := true
    concatOk := fun _ => true
    watermarkOk := true
    encodeOk := true }

/-- An environment in which the source download fails. -/
def envFailDownload : PipelineEnv :=
  { envAllOk with downloadOk := false }

/-- A plain valid request used by the concrete counterexamples. -/
def sampleParams : JobParams :=
  { videoUrl := "http://example.com/v.mp4"
    customerName := "Acme"
    introClip := none
    outroClip := none
    transitionStyle := "fade"
    overlay := { addCustomerText := false, watermarkPath := none }
    encodingPreset := "standard" }

/-! ## Field bindings of the worker updates -/

theorem lastBindingIn_single (u : Record) (k : String) :
    lastBindingIn [u] k = lookupField u.reverse k := by
  simp [lastBindingIn]

theorem progressUpdate_rev_status (q : Rat) (m : String) :
    lookupField (progressUpdate q m).reverse "status"
      = some (Value.str "processing") := rfl

theorem progressUpdate_rev_progress (q : Rat) (m : String) :
    lookupField (progressUpdate q m).reverse "progress" = some (Value.num q) := rfl

theorem progressUpdate_rev_other (q : Rat) (m k : String)
    (h1 : k ≠ "status") (h2 : k ≠ "progress") (h3 : k ≠ "message") :
    lookupField (progressUpdate q m).reverse k = none := by
  simp [progressUpdate, lookupField, Ne.symm h1, Ne.symm h2, Ne.symm h3]

theorem completedUpdate_rev_status (url : String) (now : Nat) :
    lookupField (completedUpdate url now).reverse "status"
      = some (Value.str "completed") := rfl

theorem completedUpdate_rev_result (url : String) (now : Nat) :
    lookupField (completedUpdate url now).reverse "result_url"
      = some (Value.str url) := rfl

theorem completedUpdate_rev_progress (url : String) (now : Nat) :
    lookupField (completedUpdate url now).reverse "progress"
      = some (Value.num 1) := rfl

theorem completedUpdate_rev_error (url : String) (now : Nat) :
    lookupField (completedUpdate url now).reverse "error" = none := rfl

theorem failedUpdate_rev_status (e : String) :
    lookupField (failedUpdate e).reverse "status" = some (Value.str "failed") := rfl

theorem failedUpdate_rev_error (e : String) :
    lookupField (failedUpdate e).reverse "error" = some (Value.str e) := rfl

theorem failedUpdate_rev_result (e : String) :
    lookupField (failedUpdate e).reverse "result_url" = none := rfl

theorem failedUpdate_rev_progress (e : String) :
    lookupField (failedUpdate e).reverse "progress" = some (Value.num 0) := rfl

theorem lastBindingIn_mapProgress (evs : List (Rat × String)) (k : String)
    (h1 : k ≠ "status") (h2 : k ≠ "progress") (h3 : k ≠ "message") :
    lastBindingIn (evs.map (fun pm => progressUpdate pm.1 pm.2)) k = none := by
  induction evs with
  | nil => rfl
  | cons pm evs ih =>
    simp [lastBindingIn, ih, progressUpdate_rev_other pm.1 pm.2 k h1 h2 h3]

theorem lastBindingIn_preUpdates (env : PipelineEnv) (jobId : String) (p : JobParams)
    (k : String) (h1 : k ≠ "status") (h2 : k ≠ "progress") (h3 : k ≠ "message") :
    lastBindingIn (preUpdates env jobId p) k = none := by
  unfold preUpdates
  simp [lastBindingIn, lastBindingIn_mapProgress _ k h1 h2 h3,
        progressUpdate_rev_other 0 _ k h1 h2 h3]

/-! ## Attempt-level facts -/

theorem runProcessing_of_ok (env : PipelineEnv) (jobId : String) (p : JobParams)
    (now : Nat) (path : List String)
    (h : (processVideoRun env jobId p).2 = Except.ok path) :
    runProcessing env jobId p now
      = (preUpdates env jobId p ++ [completedUpdate (getDownloadUrl path) now], true) := by
  unfold runProcessing
  rw [h]

theorem runProcessing_of_error (env : PipelineEnv) (jobId : String) (p : JobParams)
    (now : Nat) (e : String)
    (h : (processVideoRun env jobId p).2 = Except.error e) :
    runProcessing env jobId p now
      = (preUpdates env jobId p ++ [failedUpdate e], false) := by
  unfold runProcessing
  rw [h]

theorem attemptOk_of_ok (env : PipelineEnv) (jobId : String) (p : JobParams)
    (path : List String) (h : (processVideoRun env jobId p).2 = Except.ok path) :
    attemptOk env jobId p = true := by
  unfold attemptOk
  rw [h]

theorem attemptOk_of_error (env : PipelineEnv) (jobId : String) (p : JobParams)
    (e : String) (h : (processVideoRun env jobId p).2 = Except.error e) :
    attemptOk env jobId p = false := by
  unfold attemptOk
  rw [h]

/-- Every error a pipeline attempt can raise is one of the three stage
failure messages. -/
theorem processVideoRun_error_mem (env : PipelineEnv) (jobId : String) (p : JobParams)
    (e : String) (h : (processVideoRun env jobId p).2 = Except.error e) :
    e = "Failed to download video" ∨ e = "Failed to concatenate videos" ∨
      e = "Failed to encode final video" := by
  cases hd : env.downloadOk with
  | false =>
    simp [processVideoRun, hd] at h
    exact Or.inl h.symm
  | true =>
    cases hc : env.concatOk
        (buildSegments env.fsExists p.introClip p.outroClip (inputVideoPath jobId)) with
    | false =>
      simp [processVideoRun, hd, hc] at h
      exact Or.inr (Or.inl h.symm)
    | true =>
      cases he : env.encodeOk with
      | false =>
        simp [processVideoRun, hd, hc, he] at h
        exact Or.inr (Or.inr h.symm)
      | true =>
        simp [processVideoRun, hd, hc, he] at h

theorem processVideoRun_error_ne (env : PipelineEnv) (jobId : String) (p : JobParams)
    (e : String) (h : (processVideoRun env jobId p).2 = Except.error e) : e ≠ "" := by
  rcases processVideoRun_error_mem env jobId p e h with h' | h' | h' <;>
    (rw [h']; decide)

/-- The field bindings a failed attempt leaves: status failed, an error
message, no result reference. -/
theorem failedAttempt_bindings (env : PipelineEnv) (jobId : String) (p : JobParams)
    (now : Nat) (e : String) (h : (processVideoRun env jobId p).2 = Except.error e) :
    lastBindingIn (runProcessing env jobId p now).1 "status" = some (Value.str "failed") ∧
    lastBindingIn (runProcessing env jobId p now).1 "result_url" = none ∧
    lastBindingIn (runProcessing env jobId p now).1 "error" = some (Value.str e) := by
  rw [runProcessing_of_error env jobId p now e h]
  refine ⟨?_, ?_, ?_⟩ <;>
    rw [lastBindingIn_append, lastBindingIn_single]
  · rw [failedUpdate_rev_status]
    rfl
  · rw [failedUpdate_rev_result,
        lastBindingIn_preUpdates env jobId p "result_url" (by decide) (by decide) (by decide)]
    rfl
  · rw [failedUpdate_rev_error]
    rfl

/-- The field bindings a successful attempt leaves: status completed, the
download URL as result reference, no error binding. -/
theorem okAttempt_bindings (env : PipelineEnv) (jobId : String) (p : JobParams)
    (now : Nat) (path : List String)
    (h : (processVideoRun env jobId p).2 = Except.ok path) :
    lastBindingIn (runProcessing env jobId p now).1 "status" = some (Value.str "completed") ∧
    lastBindingIn (runProcessing env jobId p now).1 "result_url"
      = some (Value.str (getDownloadUrl path)) ∧
    lastBindingIn (runProcessing env jobId p now).1 "error" = none := by
  rw [runProcessing_of_ok env jobId p now path h]
  refine ⟨?_, ?_, ?_⟩ <;>
    rw [lastBindingIn_append, lastBindingIn_single]
  · rw [completedUpdate_rev_status]
    rfl
  · rw [completedUpdate_rev_result]
    rfl
  · rw [completedUpdate_rev_error,
        lastBindingIn_preUpdates env jobId p "error" (by decide) (by decide) (by decide)]
    rfl

/-- The non-empty output URL of the local download route. -/
theorem getDownloadUrl_ne_empty (path : List String) : getDownloadUrl path ≠ "" := by
  intro h
  unfold getDownloadUrl at h
  have h2 := congrArg String.length h
  rw [String.length_append] at h2
  have h3 : String.length "/api/v1/download/" = 17 := rfl
  have h4 : String.length "" = 0 := rfl
  rw [h3, h4] at h2
  omega

/-- The terminal field bindings of a whole task execution: either no attempt
ran, or the last attempt failed (status failed, a non-empty error, no result
binding), or the last attempt succeeded (status completed, a non-empty
result binding). -/
theorem taskUpdates_spec (jobId : String) (p : JobParams) (now : Nat) :
    ∀ (envs : List PipelineEnv) (b : Nat),
    taskUpdates envs jobId p now b = [] ∨
    (lastBindingIn (taskUpdates envs jobId p now b) "status" = some (Value.str "failed") ∧
     lastBindingIn (taskUpdates envs jobId p now b) "result_url" = none ∧
     ∃ e, lastBindingIn (taskUpdates envs jobId p now b) "error" = some (Value.str e) ∧
       e ≠ "") ∨
    (lastBindingIn (taskUpdates envs jobId p now b) "status" = some (Value.str "completed") ∧
     ∃ u, lastBindingIn (taskUpdates envs jobId p now b) "result_url" = some (Value.str u) ∧
       u ≠ "") := by
  intro envs
  induction envs with
  | nil => intro b; exact Or.inl rfl
  | cons env rest ih =>
    intro b
    cases hOut : (processVideoRun env jobId p).2 with
    | ok path =>
      have hT : taskUpdates (env :: rest) jobId p now b
          = (runProcessing env jobId p now).1 := by
        unfold taskUpdates
        rw [attemptOk_of_ok env jobId p path hOut]
        simp
      obtain ⟨hs, hr, _⟩ := okAttempt_bindings env jobId p now path hOut
      refine Or.inr (Or.inr ?_)
      rw [hT, hs, hr]
      exact ⟨rfl, getDownloadUrl path, rfl, getDownloadUrl_ne_empty path⟩
    | error e =>
      have hene := processVideoRun_error_ne env jobId p e hOut
      obtain ⟨hs, hr, herr⟩ := failedAttempt_bindings env jobId p now e hOut
      cases b with
      | zero =>
        have hT : taskUpdates (env :: rest) jobId p now 0
            = (runProcessing env jobId p now).1 := by
          unfold taskUpdates
          rw [attemptOk_of_error env jobId p e hOut]
          simp
        refine Or.inr (Or.inl ?_)
        rw [hT, hs, hr, herr]
        exact ⟨rfl, rfl, e, rfl, hene⟩
      | succ b' =>
        have hT : taskUpdates (env :: rest) jobId p now (Nat.succ b')
            = (runProcessing env jobId p now).1 ++ taskUpdates rest jobId p now b' := by
          conv_lhs => rw [taskUpdates]
          rw [attemptOk_of_error env jobId p e hOut]
          simp
        rcases ih b' with hnil | ⟨hs2, hr2, e2, herr2, hene2⟩ | ⟨hs2, u2, hr2, hune2⟩
        · refine Or.inr (Or.inl ?_)
          rw [hT, hnil, List.append_nil, hs, hr, herr]
          exact ⟨rfl, rfl, e, rfl, hene⟩
        · refine Or.inr (Or.inl ?_)
          rw [hT, lastBindingIn_append, lastBindingIn_append, lastBindingIn_append,
              hs2, hr2, herr2, hr]
          exact ⟨rfl, rfl, e2, rfl, hene2⟩
        · refine Or.inr (Or.inr ?_)
          rw [hT, lastBindingIn_append, lastBindingIn_append, hs2, hr2]
          exact ⟨rfl, u2, rfl, hune2⟩

/-! ## The creation record -/

theorem creationRecord_status (jobId : String) (p : JobParams) (now : Nat) :
    lookupField (creationRecord jobId p now) "status" = some (Value.str "pending") := rfl

theorem creationRecord_progress (jobId : String) (p : JobParams) (now : Nat) :
    lookupField (creationRecord jobId p now) "progress" = some (Value.num 0) := rfl

theorem creationRecord_result (jobId : String) (p : JobParams) (now : Nat) :
    lookupField (creationRecord jobId p now) "result_url" = none := by
  cases hI : p.introClip <;> cases hO : p.outroClip <;>
    simp [creationRecord, jobDataOf, hI, hO, lookupField]

theorem creationRecord_error (jobId : String) (p : JobParams) (now : Nat) :
    lookupField (creationRecord jobId p now) "error" = none := by
  cases hI : p.introClip <;> cases hO : p.outroClip <;>
    simp [creationRecord, jobDataOf, hI, hO, lookupField]

theorem finalRecord_lookup (envs : List PipelineEnv) (jobId : String) (p : JobParams)
    (now : Nat) (k : String) :
    lookupField (finalRecord envs jobId p now) k
      = orElseV (lastBindingIn (taskUpdates envs jobId p now maxRetries) k)
          (lookupField (creationRecord jobId p now) k) := by
  unfold finalRecord
  exact lookupField_foldl_mergeFields _ _ _

/-! ## Single-step task equations -/

theorem taskUpdates_cons_of_ok (env : PipelineEnv) (rest : List PipelineEnv)
    (jobId : String) (p : JobParams) (now : Nat) (b : Nat)
    (h : attemptOk env jobId p = true) :
    taskUpdates (env :: rest) jobId p now b = (runProcessing env jobId p now).1 := by
  conv_lhs => rw [taskUpdates.eq_def]
  simp [h]

theorem taskUpdates_cons_of_fail (env : PipelineEnv) (rest : List PipelineEnv)
    (jobId : String) (p : JobParams) (now : Nat) (b : Nat)
    (h : attemptOk env jobId p = false) :
    taskUpdates (env :: rest) jobId p now (Nat.succ b)
      = (runProcessing env jobId p now).1 ++ taskUpdates rest jobId p now b := by
  conv_lhs => rw [taskUpdates.eq_def]
  simp [h]

theorem taskUpdates_cons_of_fail_zero (env : PipelineEnv) (rest : List PipelineEnv)
    (jobId : String) (p : JobParams) (now : Nat)
    (h : attemptOk env jobId p = false) :
    taskUpdates (env :: rest) jobId p now 0 = (runProcessing env jobId p now).1 := by
  conv_lhs => rw [taskUpdates.eq_def]
  simp [h]

theorem attemptFalse_exists (env : PipelineEnv) (jobId : String) (p : JobParams)
    (h : attemptOk env jobId p = false) :
    ∃ e, (processVideoRun env jobId p).2 = Except.error e := by
  unfold attemptOk at h
  cases hOut : (processVideoRun env jobId p).2 with
  | ok path => rw [hOut] at h; exact absurd h (by simp)
  | error e => exact ⟨e, rfl⟩

/-! ## Claim C1: the terminal-record invariant -/

/-- The final record of a run whose first attempt fails on download and whose
retry then succeeds. -/
def c1final : Record := finalRecord [envFailDownload, envAllOk] "cjob1" sampleParams 0

/-- Claim C1 counterexample. The claim says a Completed job carries a
non-empty result reference and no error detail. Run a job whose first attempt
fails on download and whose Celery retry then succeeds: the failed attempt
writes the error field, the retry merges the completion fields over it
without clearing it, so the final record is completed with BOTH a non-empty
result reference and a non-empty error detail. -/
theorem C1_counterexample :
    statusIs c1final "completed" = true ∧
    fieldNonempty c1final "result_url" = true ∧
    fieldNonempty c1final "error" = true := by
  refine ⟨?_, ?_, ?_⟩ <;> decide

/-- Claim C1, amended: a Failed terminal record carries a non-empty error
detail and no result reference; a Completed terminal record always carries a
non-empty result reference, and carries no error detail provided no earlier
attempt of the job failed (when the job completes on a retry after a failed
attempt, the stale error detail of that attempt is retained alongside the
result, because updates merge and the completion update does not clear the
error field). -/
theorem C1_amended : ∀ (envs : List PipelineEnv) (jobId : String) (p : JobParams) (now : Nat),
    (statusIs (finalRecord envs jobId p now) "failed" = true →
        fieldNonempty (finalRecord envs jobId p now) "error" = true ∧
        lookupField (finalRecord envs jobId p now) "result_url" = none) ∧
    (statusIs (finalRecord envs jobId p now) "completed" = true →
        fieldNonempty (finalRecord envs jobId p now) "result_url" = true) ∧
    (∀ (env : PipelineEnv) (rest : List PipelineEnv) (path : List String),
        envs = env :: rest →
        (processVideoRun env jobId p).2 = Except.ok path →
        statusIs (finalRecord envs jobId p now) "completed" = true ∧
        fieldNonempty (finalRecord envs jobId p now) "result_url" = true ∧
        lookupField (finalRecord envs jobId p now) "error" = none) := by
  intro envs jobId p now
  rcases taskUpdates_spec jobId p now envs maxRetries with hnil |
      ⟨hs, hr, e, herr, hene⟩ | ⟨hs, u, hr, hune⟩
  · -- no attempt ran: the record is still the pending creation record
    have hstat : lookupField (finalRecord envs jobId p now) "status"
        = some (Value.str "pending") := by
      rw [finalRecord_lookup, hnil]
      simp [lastBindingIn, creationRecord_status]
    refine ⟨?_, ?_, ?_⟩
    · intro habs
      rw [statusIs, hstat] at habs
      exact absurd habs (by decide)
    · intro habs
      rw [statusIs, hstat] at habs
      exact absurd habs (by decide)
    · intro env rest path henvs hOut
      exfalso
      subst henvs
      have hT := taskUpdates_cons_of_ok env rest jobId p now maxRetries
          (attemptOk_of_ok env jobId p path hOut)
      have hconn : (runProcessing env jobId p now).1 = [] := by
        rw [← hT, hnil]
      have hne : (runProcessing env jobId p now).1 ≠ [] := by
        rw [runProcessing_of_ok env jobId p now path hOut]
        simp
      exact hne hconn
  · -- last attempt failed
    have hstat : lookupField (finalRecord envs jobId p now) "status"
        = some (Value.str "failed") := by
      rw [finalRecord_lookup, hs]
      rfl
    have herr2 : lookupField (finalRecord envs jobId p now) "error"
        = some (Value.str e) := by
      rw [finalRecord_lookup, herr]
      rfl
    refine ⟨?_, ?_, ?_⟩
    · intro _
      constructor
      · rw [fieldNonempty, herr2]
        simp [beq_eq_false_iff_ne.mpr hene]
      · rw [finalRecord_lookup, hr, creationRecord_result]
        rfl
    · intro habs
      rw [statusIs, hstat] at habs
      exact absurd habs (by decide)
    · intro env rest path henvs hOut
      exfalso
      subst henvs
      have hT := taskUpdates_cons_of_ok env rest jobId p now maxRetries
          (attemptOk_of_ok env jobId p path hOut)
      rw [hT] at hs
      have := (okAttempt_bindings env jobId p now path hOut).1
      rw [this] at hs
      exact absurd (Option.some.inj hs) (by intro h; exact absurd (Value.str.inj h) (by decide))
  · -- last attempt succeeded
    have hstat : lookupField (finalRecord envs jobId p now) "status"
        = some (Value.str "completed") := by
      rw [finalRecord_lookup, hs]
      rfl
    have hres : lookupField (finalRecord envs jobId p now) "result_url"
        = some (Value.str u) := by
      rw [finalRecord_lookup, hr]
      rfl
    refine ⟨?_, ?_, ?_⟩
    · intro habs
      rw [statusIs, hstat] at habs
      exact absurd habs (by decide)
    · intro _
      rw [fieldNonempty, hres]
      simp [beq_eq_false_iff_ne.mpr hune]
    · intro env rest path henvs hOut
      subst henvs
      have hT := taskUpdates_cons_of_ok env rest jobId p now maxRetries
          (attemptOk_of_ok env jobId p path hOut)
      obtain ⟨hbs, hbr, hbe⟩ := okAttempt_bindings env jobId p now path hOut
      refine ⟨?_, ?_, ?_⟩
      · rw [statusIs, hstat]
        decide
      · rw [fieldNonempty, finalRecord_lookup, hT, hbr]
        simp [beq_eq_false_iff_ne.mpr (getDownloadUrl_ne_empty path)]
      · rw [finalRecord_lookup, hT, hbe, creationRecord_error]
        rfl

/-- Witness for C1 at a run whose single attempt succeeds. -/
theorem C1_witness :
    statusIs (finalRecord [envAllOk] "wjob1" sampleParams 0) "completed" = true ∧
    fieldNonempty (finalRecord [envAllOk] "wjob1" sampleParams 0) "result_url" = true ∧
    lookupField (finalRecord [envAllOk] "wjob1" sampleParams 0) "error" = none := by
  exact (C1_amended [envAllOk] "wjob1" sampleParams 0).2.2 envAllOk []
    (finalOutputPath "wjob1") rfl rfl

/-! ## Claim C3: the retry policy -/

/-- Every fold of a prefix of the update list is one of the records the scan
makes observable. -/
theorem foldl_take_mem_scanl (l : List Record) (r0 : Record) (n : Nat) :
    (l.take n).foldl mergeFields r0 ∈ List.scanl mergeFields r0 l := by
  induction l generalizing r0 n with
  | nil =>
    simp only [List.take_nil, List.foldl_nil, List.scanl_nil]
    exact List.mem_singleton.mpr rfl
  | cons a l ih =>
    cases n with
    | zero =>
      simp only [List.take_zero, List.foldl_nil, List.scanl_cons]
      exact List.mem_cons_self _ _
    | succ n =>
      simp only [List.take_succ_cons, List.foldl_cons, List.scanl_cons]
      exact List.mem_append_right _ (ih (mergeFields r0 a) n)

/-- The count of attempts is bounded by one more than the retry budget. -/
theorem numAttempts_le (jobId : String) (p : JobParams) :
    ∀ (envs : List PipelineEnv) (b : Nat), numAttempts envs jobId p b ≤ b + 1 := by
  intro envs
  induction envs with
  | nil => intro b; exact Nat.zero_le _
  | cons env rest ih =>
    intro b
    cases hA : attemptOk env jobId p with
    | true =>
      rw [numAttempts.eq_def]
      simp [hA]
    | false =>
      rw [numAttempts.eq_def]
      cases b with
      | zero => simp [hA]
      | succ b' =>
        have hih := ih b'
        simp only [hA, Bool.false_eq_true, if_false]
        omega

/-- Claim C3 counterexample. The claim says the job is recorded Failed in the
Job Store only after the retry budget is exhausted. Run a job whose first
attempt fails on download and whose first retry then succeeds: the budget is
never exhausted, yet the trace of observable records already contains a
Failed record (written by the except branch before self.retry re-raises),
while the final record is Completed. -/
theorem C3_counterexample :
    (jobTrace [envFailDownload, envAllOk] "cjob3" sampleParams 0).any
        (fun r => statusIs r "failed") = true ∧
    statusIs (finalRecord [envFailDownload, envAllOk] "cjob3" sampleParams 0)
        "completed" = true := by
  constructor <;> decide

/-- Claim C3, amended: the task retries the same job up to 2 retries
(max_retries=2) with a fixed 60 second backoff (countdown=60) between
attempts, so at most 3 attempts run; but the job is recorded Failed in the
Job Store after EVERY failed attempt — the run_processing except branch
writes status failed before self.retry re-raises — not only after budget
exhaustion; when all three attempts fail the job record ends Failed and no
further attempt runs. -/
theorem C3_amended :
    maxRetries = 2 ∧ retryCountdown = 60 ∧
    (∀ (envs : List PipelineEnv) (jobId : String) (p : JobParams) (b : Nat),
        numAttempts envs jobId p b ≤ b + 1) ∧
    (∀ (env : PipelineEnv) (rest : List PipelineEnv) (jobId : String) (p : JobParams)
        (now : Nat) (e : String),
        (processVideoRun env jobId p).2 = Except.error e →
        ((runProcessing env jobId p now).1.foldl mergeFields (creationRecord jobId p now))
            ∈ jobTrace (env :: rest) jobId p now ∧
        statusIs ((runProcessing env jobId p now).1.foldl mergeFields
            (creationRecord jobId p now)) "failed" = true) ∧
    (∀ (e1 e2 e3 : PipelineEnv) (rest : List PipelineEnv) (jobId : String) (p : JobParams)
        (now : Nat),
        attemptOk e1 jobId p = false → attemptOk e2 jobId p = false →
        attemptOk e3 jobId p = false →
        taskUpdates (e1 :: e2 :: e3 :: rest) jobId p now maxRetries
          = taskUpdates [e1, e2, e3] jobId p now maxRetries ∧
        statusIs (finalRecord (e1 :: e2 :: e3 :: rest) jobId p now) "failed" = true) := by
  refine ⟨rfl, rfl, fun envs jobId p b => numAttempts_le jobId p envs b, ?_, ?_⟩
  · intro env rest jobId p now e hE
    have hA := attemptOk_of_error env jobId p e hE
    constructor
    · unfold jobTrace
      rw [show maxRetries = Nat.succ 1 from rfl,
          taskUpdates_cons_of_fail env rest jobId p now 1 hA]
      have hmem := foldl_take_mem_scanl
          ((runProcessing env jobId p now).1 ++ taskUpdates rest jobId p now 1)
          (creationRecord jobId p now) (runProcessing env jobId p now).1.length
      rw [List.take_left] at hmem
      exact hmem
    · obtain ⟨hbs, -, -⟩ := failedAttempt_bindings env jobId p now e hE
      have hlk : lookupField
          ((runProcessing env jobId p now).1.foldl mergeFields (creationRecord jobId p now))
          "status" = some (Value.str "failed") := by
        rw [lookupField_foldl_mergeFields, hbs]
        rfl
      rw [statusIs, hlk]
      rfl
  · intro e1 e2 e3 rest jobId p now h1 h2 h3
    obtain ⟨er3, hE3⟩ := attemptFalse_exists e3 jobId p h3
    have hT1 : taskUpdates (e1 :: e2 :: e3 :: rest) jobId p now maxRetries
        = (runProcessing e1 jobId p now).1 ++
            ((runProcessing e2 jobId p now).1 ++ (runProcessing e3 jobId p now).1) := by
      rw [show maxRetries = Nat.succ 1 from rfl,
          taskUpdates_cons_of_fail e1 _ jobId p now 1 h1,
          show (1 : Nat) = Nat.succ 0 from rfl,
          taskUpdates_cons_of_fail e2 _ jobId p now 0 h2,
          taskUpdates_cons_of_fail_zero e3 rest jobId p now h3]
    have hT2 : taskUpdates [e1, e2, e3] jobId p now maxRetries
        = (runProcessing e1 jobId p now).1 ++
            ((runProcessing e2 jobId p now).1 ++ (runProcessing e3 jobId p now).1) := by
      rw [show maxRetries = Nat.succ 1 from rfl,
          taskUpdates_cons_of_fail e1 _ jobId p now 1 h1,
          show (1 : Nat) = Nat.succ 0 from rfl,
          taskUpdates_cons_of_fail e2 _ jobId p now 0 h2,
          taskUpdates_cons_of_fail_zero e3 [] jobId p now h3]
    constructor
    · rw [hT1, hT2]
    · have hs3 := (failedAttempt_bindings e3 jobId p now er3 hE3).1
      have hlk : lookupField (finalRecord (e1 :: e2 :: e3 :: rest) jobId p now) "status"
          = some (Value.str "failed") := by
        rw [finalRecord_lookup, hT1, lastBindingIn_append, lastBindingIn_append, hs3]
        rfl
      rw [statusIs, hlk]
      rfl

/-- Witness for C3: a failing attempt writes an observable Failed record, and
three failing attempts exhaust the budget leaving the final record Failed. -/
theorem C3_witness :
    ((runProcessing envFailDownload "wjob3" sampleParams 0).1.foldl mergeFields
        (creationRecord "wjob3" sampleParams 0))
      ∈ jobTrace [envFailDownload, envAllOk] "wjob3" sampleParams 0 ∧
    statusIs (finalRecord [envFailDownload, envFailDownload, envFailDownload]
        "wjob3" sampleParams 0) "failed" = true := by
  constructor
  · exact (C3_amended.2.2.2.1 envFailDownload [envAllOk] "wjob3" sampleParams 0
      "Failed to download video" rfl).1
  · exact (C3_amended.2.2.2.2 envFailDownload envFailDownload envFailDownload []
      "wjob3" sampleParams 0 rfl rfl rfl).2

/-! ## Claim C7: missing assets are non-fatal -/

/-- Claim C7: for every pipeline run, a named intro or outro asset that does
not exist on disk at segment-assembly time is skipped without error: the
missing asset contributes no segment; the segment list is exactly the
existing intro, then the main downloaded video, then the existing outro, in
that order; and with no condition on which named assets exist, the run still
reaches Completed with no error detail whenever the download, the
concatenation of those segments and the final encode succeed. -/
theorem C7_missing_asset : ∀ (env : PipelineEnv) (jobId : String) (p : JobParams) (now : Nat),
    (∀ i, p.introClip = some i → env.fsExists (introAssetPath i) = false →
        introAssetPath i ∉
          buildSegments env.fsExists p.introClip p.outroClip (inputVideoPath jobId)) ∧
    (∀ o, p.outroClip = some o → env.fsExists (outroAssetPath o) = false →
        outroAssetPath o ∉
          buildSegments env.fsExists p.introClip p.outroClip (inputVideoPath jobId)) ∧
    (buildSegments env.fsExists p.introClip p.outroClip (inputVideoPath jobId)
      = (match p.introClip with
         | some i => if env.fsExists (introAssetPath i) then [introAssetPath i] else []
         | none => [])
        ++ [inputVideoPath jobId]
        ++ (match p.outroClip with
            | some o => if env.fsExists (outroAssetPath o) then [outroAssetPath o] else []
            | none => [])) ∧
    (env.downloadOk = true →
     env.concatOk (buildSegments env.fsExists p.introClip p.outroClip (inputVideoPath jobId))
       = true →
     env.encodeOk = true →
     (processVideoRun env jobId p).2 = Except.ok (finalOutputPath jobId) ∧
     statusIs (finalRecord [env] jobId p now) "completed" = true ∧
     lookupField (finalRecord [env] jobId p now) "error" = none) := by
  intro env jobId p now
  refine ⟨?_, ?_, rfl, ?_⟩
  · intro i hI hMiss hmem
    simp [introAssetPath, pathJoin, assetsDir] at hMiss
    cases hO : p.outroClip with
    | none =>
      rw [buildSegments.eq_def, hI, hO] at hmem
      simp [hMiss, introAssetPath, inputVideoPath, pathJoin, assetsDir, tempDir] at hmem
    | some o =>
      rw [buildSegments.eq_def, hI, hO] at hmem
      cases hfo : env.fsExists (outroAssetPath o) with
      | false =>
        simp [outroAssetPath, pathJoin, assetsDir] at hfo
        simp [hMiss, hfo, introAssetPath, outroAssetPath, inputVideoPath, pathJoin,
              assetsDir, tempDir] at hmem
      | true =>
        simp [outroAssetPath, pathJoin, assetsDir] at hfo
        simp [hMiss, hfo, introAssetPath, outroAssetPath, inputVideoPath, pathJoin,
              assetsDir, tempDir] at hmem
  · intro o hO hMiss hmem
    simp [outroAssetPath, pathJoin, assetsDir] at hMiss
    cases hI : p.introClip with
    | none =>
      rw [buildSegments.eq_def, hI, hO] at hmem
      simp [hMiss, outroAssetPath, inputVideoPath, pathJoin, assetsDir, tempDir] at hmem
    | some i =>
      rw [buildSegments.eq_def, hI, hO] at hmem
      cases hfi : env.fsExists (introAssetPath i) with
      | false =>
        simp [introAssetPath, pathJoin, assetsDir] at hfi
        simp [hMiss, hfi, introAssetPath, outroAssetPath, inputVideoPath, pathJoin,
              assetsDir, tempDir] at hmem
      | true =>
        simp [introAssetPath, pathJoin, assetsDir] at hfi
        simp [hMiss, hfi, introAssetPath, outroAssetPath, inputVideoPath, pathJoin,
              assetsDir, tempDir] at hmem
  · intro hD hC hE
    have hOut : (processVideoRun env jobId p).2 = Except.ok (finalOutputPath jobId) := by
      simp [processVideoRun, hD, hC, hE]
    refine ⟨hOut, ?_, ?_⟩
    all_goals
      have hT := taskUpdates_cons_of_ok env [] jobId p now maxRetries
        (attemptOk_of_ok env jobId p _ hOut)
    all_goals
      obtain ⟨hbs, hbr, hbe⟩ := okAttempt_bindings env jobId p now _ hOut
    · have hlk : lookupField (finalRecord [env] jobId p now) "status"
          = some (Value.str "completed") := by
        rw [finalRecord_lookup, hT, hbs]
        rfl
      rw [statusIs, hlk]
      rfl
    · rw [finalRecord_lookup, hT, hbe, creationRecord_error]
      rfl

/-- The request of the C7 witness: an intro and an outro are both named but
neither file exists. -/
def c7params : JobParams :=
  { sampleParams with introClip := some "intro.mp4", outroClip := some "outro.mp4" }

/-- The environment of the C7 witness: an empty filesystem, all external
calls succeeding. -/
def c7env : PipelineEnv :=
  { envAllOk with fsExists := fun _ => false }

/-- Witness for C7 at a concrete run whose named intro and outro assets are
both missing: neither contributes a segment and the run ends Completed with
no error detail. -/
theorem C7_witness :
    introAssetPath "intro.mp4" ∉
      buildSegments c7env.fsExists c7params.introClip c7params.outroClip
        (inputVideoPath "wjob7") ∧
    outroAssetPath "outro.mp4" ∉
      buildSegments c7env.fsExists c7params.introClip c7params.outroClip
        (inputVideoPath "wjob7") ∧
    statusIs (finalRecord [c7env] "wjob7" c7params 0) "completed" = true ∧
    lookupField (finalRecord [c7env] "wjob7" c7params 0) "error" = none := by
  have h := C7_missing_asset c7env "wjob7" c7params 0
  have hc := h.2.2.2 rfl rfl rfl
  exact ⟨h.1 "intro.mp4" rfl rfl, h.2.1 "outro.mp4" rfl rfl, hc.2.1, hc.2.2⟩

/-! ## Claim C2: progress discipline

Helpers: a computable non-decreasing check on rational lists (the order on
Rat is definitionally the blt test of the runtime, so the check converts to
a Chain of ≤), scanl/takeWhile decompositions, and the characterisation of
the pipeline event list under each guard outcome. -/

/-- Computable check that a list of rationals is non-decreasing. -/
def nonDecreasingB : List Rat → Bool
  | a :: b :: rest => !(Rat.blt b a) && nonDecreasingB (b :: rest)
  | _ => true

theorem chain'_le_of_nonDecreasingB : ∀ l : List Rat, nonDecreasingB l = true →
    List.Chain' (fun a b : Rat => a ≤ b) l := by
  intro l
  induction l with
  | nil => intro _; exact List.chain'_nil
  | cons a l ih =>
    cases l with
    | nil => intro _; exact List.chain'_singleton a
    | cons b rest =>
      intro h
      rw [nonDecreasingB, Bool.and_eq_true] at h
      refine List.Chain'.cons ?_ (ih h.2)
      have hb : Rat.blt b a = false := by
        cases hc : Rat.blt b a
        · rfl
        · rw [hc] at h; exact absurd h.1 (by decide)
      exact hb

theorem scanl_append (b : Record) (l1 l2 : List Record) :
    List.scanl mergeFields b (l1 ++ l2)
      = List.scanl mergeFields b l1
        ++ (List.scanl mergeFields (l1.foldl mergeFields b) l2).tail := by
  induction l1 generalizing b with
  | nil =>
    cases l2 with
    | nil => simp [List.scanl_nil]
    | cons a l2 => simp [List.scanl_nil, List.scanl_cons]
  | cons a l1 ih =>
    simp [List.scanl_cons, ih (mergeFields b a)]

theorem takeWhile_append_left (q : Record → Bool) (l1 l2 : List Record)
    (h : ∃ x ∈ l1, q x = false) :
    (l1 ++ l2).takeWhile q = l1.takeWhile q := by
  induction l1 with
  | nil =>
    rcases h with ⟨x, hx, -⟩
    exact absurd hx (List.not_mem_nil x)
  | cons a l1 ih =>
    cases ha : q a with
    | false => simp [List.takeWhile_cons, ha]
    | true =>
      have h' : ∃ x ∈ l1, q x = false := by
        rcases h with ⟨x, hx, hqx⟩
        rcases List.mem_cons.mp hx with rfl | hx'
        · rw [ha] at hqx
          exact absurd hqx (by decide)
        · exact ⟨x, hx', hqx⟩
      simp [List.takeWhile_cons, ha, ih h']

/-- The pipeline events when the download fails. -/
theorem pvr_dl_false (env : PipelineEnv) (jobId : String) (p : JobParams)
    (h : env.downloadOk = false) :
    processVideoRun env jobId p
      = ([(mkRat 1 10, "Starting video processing...")],
         Except.error "Failed to download video") := by
  simp [processVideoRun, h]

/-- The pipeline events when the concatenation fails. -/
theorem pvr_concat_false (env : PipelineEnv) (jobId : String) (p : JobParams)
    (hd : env.downloadOk = true)
    (hc : env.concatOk
        (buildSegments env.fsExists p.introClip p.outroClip (inputVideoPath jobId)) = false) :
    processVideoRun env jobId p
      = ([(mkRat 1 10, "Starting video processing..."),
          (mkRat 3 10, "Video downloaded, processing..."),
          (mkRat 5 10, "Concatenating video segments...")],
         Except.error "Failed to concatenate videos") := by
  simp [processVideoRun, hd, hc]

/-- The checkpoint events up to and including the final-encoding event, as a
function of the overlay options. -/
def checkpointEvents (ov : OverlaySettings) : List (Rat × String) :=
  [(mkRat 1 10, "Starting video processing..."),
   (mkRat 3 10, "Video downloaded, processing..."),
   (mkRat 5 10, "Concatenating video segments...")]
  ++ (if ov.addCustomerText then [(mkRat 7 10, "Adding customer text overlay...")] else [])
  ++ (match ov.watermarkPath with
      | none => []
      | some _ => [(mkRat 8 10, "Adding watermark...")])
  ++ [(mkRat 9 10, "Final encoding...")]

/-- The pipeline events when the final encode fails. -/
theorem pvr_encode_false (env : PipelineEnv) (jobId : String) (p : JobParams)
    (hd : env.downloadOk = true)
    (hc : env.concatOk
        (buildSegments env.fsExists p.introClip p.outroClip (inputVideoPath jobId)) = true)
    (he : env.encodeOk = false) :
    processVideoRun env jobId p
      = (checkpointEvents p.overlay, Except.error "Failed to encode final video") := by
  cases ht : p.overlay.addCustomerText <;>
    rcases hw : p.overlay.watermarkPath with _ | w <;>
      simp [processVideoRun, checkpointEvents, hd, hc, he, ht, hw]

/-- The pipeline events of a fully successful attempt. -/
theorem pvr_ok_events (env : PipelineEnv) (jobId : String) (p : JobParams)
    (hd : env.downloadOk = true)
    (hc : env.concatOk
        (buildSegments env.fsExists p.introClip p.outroClip (inputVideoPath jobId)) = true)
    (he : env.encodeOk = true) :
    processVideoRun env jobId p
      = (checkpointEvents p.overlay ++ [((1 : Rat), "Video processing completed!")],
         Except.ok (finalOutputPath jobId)) := by
  cases ht : p.overlay.addCustomerText <;>
    rcases hw : p.overlay.watermarkPath with _ | w <;>
      simp [processVideoRun, checkpointEvents, hd, hc, he, ht, hw]

/-- The prefix of the trace strictly before the first terminal read only
depends on the first attempt. -/
theorem progressValues_cons (env : PipelineEnv) (rest : List PipelineEnv)
    (jobId : String) (p : JobParams) (now : Nat) :
    progressValues (env :: rest) jobId p now
      = ((List.scanl mergeFields (creationRecord jobId p now)
            (runProcessing env jobId p now).1).takeWhile
          (fun r => !(isTerminal r))).map progressValOf := by
  cases hOut : (processVideoRun env jobId p).2 with
  | ok path =>
    have hT := taskUpdates_cons_of_ok env rest jobId p now maxRetries
      (attemptOk_of_ok env jobId p path hOut)
    unfold progressValues jobTrace
    rw [hT]
  | error e =>
    have hA := attemptOk_of_error env jobId p e hOut
    unfold progressValues jobTrace
    rw [show maxRetries = Nat.succ 1 from rfl,
        taskUpdates_cons_of_fail env rest jobId p now 1 hA,
        scanl_append]
    have hterm : ∃ x ∈ List.scanl mergeFields (creationRecord jobId p now)
        (runProcessing env jobId p now).1, (fun r => !(isTerminal r)) x = false := by
      refine ⟨(runProcessing env jobId p now).1.foldl mergeFields
          (creationRecord jobId p now), ?_, ?_⟩
      · have hm := foldl_take_mem_scanl (runProcessing env jobId p now).1
          (creationRecord jobId p now) (runProcessing env jobId p now).1.length
        rw [List.take_length] at hm
        exact hm
      · obtain ⟨hbs, -, -⟩ := failedAttempt_bindings env jobId p now e hOut
        have hlk : lookupField ((runProcessing env jobId p now).1.foldl mergeFields
            (creationRecord jobId p now)) "status" = some (Value.str "failed") := by
          rw [lookupField_foldl_mergeFields, hbs]
          rfl
        simp [isTerminal, statusIs, hlk]
    rw [takeWhile_append_left _ _ _ hterm]

/-- The monotone-progress half of C2: over any run, the progress values of
the status reads strictly before the first terminal read never decrease. -/
theorem progressValues_chain (envs : List PipelineEnv) (jobId : String) (p : JobParams)
    (now : Nat) :
    List.Chain' (fun a b : Rat => a ≤ b) (progressValues envs jobId p now) := by
  cases envs with
  | nil =>
    have hterm : isTerminal (creationRecord jobId p now) = false := by
      simp [isTerminal, statusIs, creationRecord_status]
    have hred : progressValues [] jobId p now = [0] := by
      unfold progressValues jobTrace
      rw [show taskUpdates [] jobId p now maxRetries = [] from rfl, List.scanl_nil]
      simp [List.takeWhile_cons, hterm, progressValOf, creationRecord_progress]
    rw [hred]
    exact List.chain'_singleton 0
  | cons env rest =>
    rw [progressValues_cons]
    apply chain'_le_of_nonDecreasingB
    cases hd : env.downloadOk with
    | false =>
      have hp := pvr_dl_false env jobId p hd
      have h2 : (processVideoRun env jobId p).2
          = Except.error "Failed to download video" := by rw [hp]
      rw [runProcessing_of_error env jobId p now _ h2]
      simp only [preUpdates, hp]
      rfl
    | true =>
      cases hc : env.concatOk
          (buildSegments env.fsExists p.introClip p.outroClip (inputVideoPath jobId)) with
      | false =>
        have hp := pvr_concat_false env jobId p hd hc
        have h2 : (processVideoRun env jobId p).2
            = Except.error "Failed to concatenate videos" := by rw [hp]
        rw [runProcessing_of_error env jobId p now _ h2]
        simp only [preUpdates, hp]
        rfl
      | true =>
        cases he : env.encodeOk with
        | false =>
          have hp := pvr_encode_false env jobId p hd hc he
          have h2 : (processVideoRun env jobId p).2
              = Except.error "Failed to encode final video" := by rw [hp]
          rw [runProcessing_of_error env jobId p now _ h2]
          simp only [preUpdates, hp]
          cases ht : p.overlay.addCustomerText <;>
            rcases hw : p.overlay.watermarkPath with _ | w <;>
              simp only [checkpointEvents, ht, hw] <;> rfl
        | true =>
          have hp := pvr_ok_events env jobId p hd hc he
          have h2 : (processVideoRun env jobId p).2
              = Except.ok (finalOutputPath jobId) := by rw [hp]
          rw [runProcessing_of_ok env jobId p now _ h2]
          simp only [preUpdates, hp]
          cases ht : p.overlay.addCustomerText <;>
            rcases hw : p.overlay.watermarkPath with _ | w <;>
              simp only [checkpointEvents, ht, hw] <;> rfl

/-- The shapes a worker update can have. -/
def isWorkerUpdate (u : Record) : Prop :=
  (∃ q m, u = progressUpdate q m) ∨ (∃ url n, u = completedUpdate url n) ∨
    (∃ e, u = failedUpdate e)

theorem mem_preUpdates_shape (env : PipelineEnv) (jobId : String) (p : JobParams)
    (u : Record) (hu : u ∈ preUpdates env jobId p) : ∃ q m, u = progressUpdate q m := by
  unfold preUpdates at hu
  rcases List.mem_cons.mp hu with rfl | hu'
  · exact ⟨0, "Starting video processing...", rfl⟩
  · obtain ⟨pm, -, rfl⟩ := List.mem_map.mp hu'
    exact ⟨pm.1, pm.2, rfl⟩

/-- Every update a task execution writes is one of the three update shapes. -/
theorem taskUpdates_shape (jobId : String) (p : JobParams) (now : Nat) :
    ∀ (envs : List PipelineEnv) (b : Nat) (u : Record),
      u ∈ taskUpdates envs jobId p now b → isWorkerUpdate u := by
  intro envs
  induction envs with
  | nil => intro b u hu; exact absurd hu (List.not_mem_nil u)
  | cons env rest ih =>
    intro b u hu
    cases hOut : (processVideoRun env jobId p).2 with
    | ok path =>
      rw [taskUpdates_cons_of_ok env rest jobId p now b
            (attemptOk_of_ok env jobId p path hOut),
          runProcessing_of_ok env jobId p now path hOut] at hu
      rcases List.mem_append.mp hu with hpre | hlast
      · exact Or.inl (mem_preUpdates_shape env jobId p u hpre)
      · exact Or.inr (Or.inl ⟨getDownloadUrl path, now, List.mem_singleton.mp hlast⟩)
    | error e =>
      have hA := attemptOk_of_error env jobId p e hOut
      have hatt : ∀ v, v ∈ (runProcessing env jobId p now).1 → isWorkerUpdate v := by
        intro v hv
        rw [runProcessing_of_error env jobId p now e hOut] at hv
        rcases List.mem_append.mp hv with hpre | hlast
        · exact Or.inl (mem_preUpdates_shape env jobId p v hpre)
        · exact Or.inr (Or.inr ⟨e, List.mem_singleton.mp hlast⟩)
      cases b with
      | zero =>
        rw [taskUpdates_cons_of_fail_zero env rest jobId p now hA] at hu
        exact hatt u hu
      | succ b' =>
        rw [taskUpdates_cons_of_fail env rest jobId p now b' hA] at hu
        rcases List.mem_append.mp hu with hatt' | htail
        · exact hatt u hatt'
        · exact ih b' u htail

/-- Every record the scan makes observable is the fold of a prefix. -/
theorem mem_scanl_eq_foldl_take (l : List Record) (r0 r : Record)
    (h : r ∈ List.scanl mergeFields r0 l) :
    ∃ n, r = (l.take n).foldl mergeFields r0 := by
  induction l generalizing r0 with
  | nil =>
    rw [List.scanl_nil] at h
    exact ⟨0, by simpa using (List.mem_singleton.mp h)⟩
  | cons a l ih =>
    rw [List.scanl_cons] at h
    rcases List.mem_append.mp h with hhead | htail
    · exact ⟨0, by simpa using (List.mem_singleton.mp hhead)⟩
    · obtain ⟨n, hn⟩ := ih (mergeFields r0 a) htail
      exact ⟨n + 1, by simp [List.take_succ_cons, List.foldl_cons, hn]⟩

/-- When the last status binding of a list of worker updates is completed,
the last progress binding is 1 (the completion update is the only worker
update binding status completed, and it binds progress 1). -/
theorem lastBindingIn_status_completed : ∀ l : List Record,
    (∀ u ∈ l, isWorkerUpdate u) →
    lastBindingIn l "status" = some (Value.str "completed") →
    lastBindingIn l "progress" = some (Value.num 1) := by
  intro l
  induction l with
  | nil => intro _ h; exact absurd h (by simp [lastBindingIn])
  | cons u rest ih =>
    intro hall h
    cases hr : lastBindingIn rest "status" with
    | some v =>
      rw [lastBindingIn, hr, orElseV_some] at h
      rw [h] at hr
      have hprog := ih (fun x hx => hall x (List.mem_cons_of_mem u hx)) hr
      rw [lastBindingIn, hprog, orElseV_some]
    | none =>
      rw [lastBindingIn, hr, orElseV_none] at h
      have hrestnil : rest = [] := by
        cases rest with
        | nil => rfl
        | cons u2 rest2 =>
          exfalso
          have h2 := hall u2 (List.mem_cons_of_mem u (List.mem_cons_self u2 rest2))
          have hne : lookupField u2.reverse "status" ≠ none := by
            rcases h2 with ⟨q, m, rfl⟩ | ⟨url, n, rfl⟩ | ⟨e, rfl⟩ <;>
              simp [progressUpdate_rev_status, completedUpdate_rev_status,
                    failedUpdate_rev_status]
          rw [lastBindingIn] at hr
          cases hx : lastBindingIn rest2 "status" with
          | some v => rw [hx, orElseV_some] at hr; exact Option.noConfusion hr
          | none => rw [hx, orElseV_none] at hr; exact hne hr
      subst hrestnil
      rcases hall u (List.mem_cons_self u []) with ⟨q, m, rfl⟩ | ⟨url, n, rfl⟩ | ⟨e, rfl⟩
      · rw [progressUpdate_rev_status] at h
        exact absurd (Value.str.inj (Option.some.inj h)) (by decide)
      · rw [lastBindingIn, lastBindingIn, orElseV_none, completedUpdate_rev_progress]
      · rw [failedUpdate_rev_status] at h
        exact absurd (Value.str.inj (Option.some.inj h)) (by decide)

/-- The completed-implies-progress-1 half of C2. -/
theorem trace_completed_progress (envs : List PipelineEnv) (jobId : String)
    (p : JobParams) (now : Nat) :
    ∀ r ∈ jobTrace envs jobId p now,
      statusIs r "completed" = true → lookupField r "progress" = some (Value.num 1) := by
  intro r hr hst
  unfold jobTrace at hr
  obtain ⟨n, rfl⟩ := mem_scanl_eq_foldl_take _ _ r hr
  rw [statusIs, lookupField_foldl_mergeFields] at hst
  cases hlb : lastBindingIn ((taskUpdates envs jobId p now maxRetries).take n) "status" with
  | none =>
    rw [hlb, orElseV_none, creationRecord_status] at hst
    exact absurd hst (by decide)
  | some v =>
    rw [hlb, orElseV_some] at hst
    cases v with
    | num q => exact absurd hst (by simp)
    | str s' =>
      have hs' : s' = "completed" := of_decide_eq_true hst
      subst hs'
      have hshape : ∀ u ∈ (taskUpdates envs jobId p now maxRetries).take n,
          isWorkerUpdate u := fun u hu =>
        taskUpdates_shape jobId p now envs maxRetries u (List.mem_of_mem_take hu)
      have hprog := lastBindingIn_status_completed _ hshape hlb
      rw [lookupField_foldl_mergeFields, hprog, orElseV_some]

/-- Claim C2 counterexample. The claim says progress equals 1.0 only when the
job status is Completed. On a successful run the last pipeline progress
callback writes progress 1.0 while the status is still processing, one update
before the completion update, so a status read at that instant observes
progress 1.0 with status Processing. -/
theorem C2_counterexample :
    (jobTrace [envAllOk] "cjob2" sampleParams 0).any
      (fun r => statusIs r "processing" && decide (progressValOf r = 1)) = true := by
  decide

/-- Claim C2, amended: progress is 0.0 at creation; over any sequence of
status reads the progress values strictly before the first terminal read are
non-decreasing; and whenever the status is Completed the progress is 1.0 —
but the converse direction of the original claim fails: progress 1.0 is also
observable with status Processing in the final pipeline update immediately
preceding the completion update. -/
theorem C2_amended : ∀ (envs : List PipelineEnv) (jobId : String) (p : JobParams) (now : Nat),
    progressValOf (creationRecord jobId p now) = 0 ∧
    List.Chain' (fun a b : Rat => a ≤ b) (progressValues envs jobId p now) ∧
    (∀ r ∈ jobTrace envs jobId p now,
        statusIs r "completed" = true → lookupField r "progress" = some (Value.num 1)) := by
  intro envs jobId p now
  refine ⟨?_, progressValues_chain envs jobId p now, trace_completed_progress envs jobId p now⟩
  rw [progressValOf, creationRecord_progress]

/-- Witness for C2 at a concrete successful run: the chain of observed
progress values, and the completed final record read back with progress 1. -/
theorem C2_witness :
    progressValOf (creationRecord "wjob2" sampleParams 0) = 0 ∧
    List.Chain' (fun a b : Rat => a ≤ b) (progressValues [envAllOk] "wjob2" sampleParams 0) ∧
    lookupField (finalRecord [envAllOk] "wjob2" sampleParams 0) "progress"
      = some (Value.num 1) := by
  have h := C2_amended [envAllOk] "wjob2" sampleParams 0
  refine ⟨h.1, h.2.1, h.2.2 (finalRecord [envAllOk] "wjob2" sampleParams 0) ?_ (by decide)⟩
  unfold jobTrace finalRecord
  have hm := foldl_take_mem_scanl (taskUpdates [envAllOk] "wjob2" sampleParams 0 maxRetries)
    (creationRecord "wjob2" sampleParams 0)
    (taskUpdates [envAllOk] "wjob2" sampleParams 0 maxRetries).length
  rw [List.take_length] at hm
  exact hm

end VideoEdit
